import Mathlib

/-!
Verification development for the sandboxed execution engine
(`S10/action/executor.py`) and the tool dispatch layer
(`S10/mcp_servers/multiMCP.py`) of the AgenticAI-Architecture repository.

The Python source is shallowly embedded: the fragment of the Python AST
that the executor manipulates becomes `PyExpr`/`PyStmt`; running the
compiled unit becomes a fuel-indexed evaluator; remote tool calls and
`json.loads` become oracles passed in as functions; wall-clock facts
(the `asyncio.wait_for` deadline elapsing, timestamps) become explicit
parameters.  Exception strings from the source are reproduced except that
quote characters around interpolated names are dropped.
-/

/-- A Python exception as observed by `except` clauses: its type name and
its message.  Every exception modelled here is a subclass of `Exception`,
as all the exceptions reachable in the source are (in particular
`asyncio.TimeoutError` is a subclass of `Exception`). -/
structure PyExc where
  typeName : String
  msg : String
deriving DecidableEq

/-- The `asyncio.TimeoutError` raised by `asyncio.wait_for`; `str(e)` of it
is empty. -/
def pyTimeoutExc : PyExc := ⟨"TimeoutError", ""⟩

/-- Python runtime values in the embedded fragment.  `vraw` models an MCP
`CallToolResult` object: the only attributes the executor reads are
`isError` and the `text` of its content blocks. -/
inductive PyVal where
  | vnone
  | vint (n : Int)
  | vbool (b : Bool)
  | vstr (s : String)
  | vraw (isErrorFlag : Bool) (content : List String)
deriving DecidableEq

/-- `str(value)` for the embedded value fragment, matching CPython
rendering on the constructors that the claims exercise. -/
def pyStr : PyVal → String
  | .vnone => "None"
  | .vint n => toString n
  | .vbool true => "True"
  | .vbool false => "False"
  | .vstr s => s
  | .vraw _ _ => "CallToolResult"

/-- Python truthiness for the embedded value fragment. -/
def pyTruthy : PyVal → Bool
  | .vnone => false
  | .vint n => n != 0
  | .vbool b => b
  | .vstr s => s != ""
  | .vraw _ _ => true

/-- The expression fragment of the Python AST that the executor rewrites
and runs: names, constants, `+`, calls (with keyword arguments), `await`. -/
inductive PyExpr where
  | ename (id : String)
  | eint (n : Int)
  | ebool (b : Bool)
  | estr (s : String)
  | enone
  | eadd (l r : PyExpr)
  | ecall (f : PyExpr) (args : List PyExpr) (kwargs : List (String × PyExpr))
  | eawait (e : PyExpr)

/-- The statement fragment: assignments (to plain names), `return`,
expression statements, `if`, `while`.  A module body / compound-statement
body is a `List PyStmt`, as in the Python AST. -/
inductive PyStmt where
  | sassign (targets : List String) (value : PyExpr)
  | sreturn (value : Option PyExpr)
  | sexpr (e : PyExpr)
  | sif (cond : PyExpr) (body orelse : List PyStmt)
  | swhile (cond : PyExpr) (body : List PyStmt)

/-- `MAX_FUNCTIONS` from `executor.py`. -/
def MAX_FUNCTIONS : Nat := 5

/-- `TIMEOUT_PER_FUNCTION` from `executor.py` (seconds). -/
def TIMEOUT_PER_FUNCTION : Nat := 500

mutual

/-- Number of `ast.Call` nodes in an expression, as `ast.walk` sees them
(nested calls, call arguments and keyword-argument values included). -/
def countCallsE : PyExpr → Nat
  | .ename _ => 0
  | .eint _ => 0
  | .ebool _ => 0
  | .estr _ => 0
  | .enone => 0
  | .eadd l r => countCallsE l + countCallsE r
  | .ecall f args kwargs =>
      1 + countCallsE f + countCallsArgs args + countCallsKw kwargs
  | .eawait e => countCallsE e

def countCallsArgs : List PyExpr → Nat
  | [] => 0
  | e :: es => countCallsE e + countCallsArgs es

def countCallsKw : List (String × PyExpr) → Nat
  | [] => 0
  | (_, e) :: es => countCallsE e + countCallsKw es

end

mutual

/-- Number of `ast.Call` nodes inside one statement. -/
def countCallsS : PyStmt → Nat
  | .sassign _ v => countCallsE v
  | .sreturn none => 0
  | .sreturn (some v) => countCallsE v
  | .sexpr e => countCallsE e
  | .sif c b o => countCallsE c + countCallsBody b + countCallsBody o
  | .swhile c b => countCallsE c + countCallsBody b

def countCallsBody : List PyStmt → Nat
  | [] => 0
  | s :: rest => countCallsS s + countCallsBody rest

end

/-- `count_function_calls` from `executor.py`: the number of `ast.Call`
nodes in the parsed program. -/
def countFunctionCalls (prog : List PyStmt) : Nat := countCallsBody prog

mutual

/-- `KeywordStripper.visit_Call`: rewrite every call so keyword-argument
values are appended, in written order, to the positional arguments and the
keyword names are discarded (children are transformed first, as
`generic_visit` does). -/
def stripKwE : PyExpr → PyExpr
  | .ename i => .ename i
  | .eint n => .eint n
  | .ebool b => .ebool b
  | .estr s => .estr s
  | .enone => .enone
  | .eadd l r => .eadd (stripKwE l) (stripKwE r)
  | .ecall f args kwargs =>
      .ecall (stripKwE f) (stripKwArgs args ++ stripKwVals kwargs) []
  | .eawait e => .eawait (stripKwE e)

def stripKwArgs : List PyExpr → List PyExpr
  | [] => []
  | e :: es => stripKwE e :: stripKwArgs es

def stripKwVals : List (String × PyExpr) → List PyExpr
  | [] => []
  | (_, e) :: es => stripKwE e :: stripKwVals es

end

mutual

def stripKwS : PyStmt → PyStmt
  | .sassign ts v => .sassign ts (stripKwE v)
  | .sreturn none => .sreturn none
  | .sreturn (some v) => .sreturn (some (stripKwE v))
  | .sexpr e => .sexpr (stripKwE e)
  | .sif c b o => .sif (stripKwE c) (stripKwBody b) (stripKwBody o)
  | .swhile c b => .swhile (stripKwE c) (stripKwBody b)

def stripKwBody : List PyStmt → List PyStmt
  | [] => []
  | s :: rest => stripKwS s :: stripKwBody rest

end

mutual

/-- `AwaitTransformer.visit_Call`: after transforming children, wrap any
call whose target is a bare name registered as an async MCP tool in an
`await`. -/
def awaitTfE (tools : List String) : PyExpr → PyExpr
  | .ename i => .ename i
  | .eint n => .eint n
  | .ebool b => .ebool b
  | .estr s => .estr s
  | .enone => .enone
  | .eadd l r => .eadd (awaitTfE tools l) (awaitTfE tools r)
  | .ecall f args kwargs =>
      let c := PyExpr.ecall (awaitTfE tools f) (awaitTfArgs tools args)
        (awaitTfKw tools kwargs)
      match f with
      | .ename i => if tools.contains i then .eawait c else c
      | _ => c
  | .eawait e => .eawait (awaitTfE tools e)

def awaitTfArgs (tools : List String) : List PyExpr → List PyExpr
  | [] => []
  | e :: es => awaitTfE tools e :: awaitTfArgs tools es

def awaitTfKw (tools : List String) :
    List (String × PyExpr) → List (String × PyExpr)
  | [] => []
  | (k, e) :: es => (k, awaitTfE tools e) :: awaitTfKw tools es

end

mutual

def awaitTfS (tools : List String) : PyStmt → PyStmt
  | .sassign ts v => .sassign ts (awaitTfE tools v)
  | .sreturn none => .sreturn none
  | .sreturn (some v) => .sreturn (some (awaitTfE tools v))
  | .sexpr e => .sexpr (awaitTfE tools e)
  | .sif c b o => .sif (awaitTfE tools c) (awaitTfBody tools b) (awaitTfBody tools o)
  | .swhile c b => .swhile (awaitTfE tools c) (awaitTfBody tools b)

def awaitTfBody (tools : List String) : List PyStmt → List PyStmt
  | [] => []
  | s :: rest => awaitTfS tools s :: awaitTfBody tools rest

end

/-- State threaded through the running unit: the local variables of the
compiled `__main` function, the `result_holder` slot written by the
`final_answer` sink (kept in the sandbox globals by `build_safe_globals`),
and the log of remote tool invocations made so far. -/
structure RunState where
  env : List (String × PyVal)
  slot : Option PyVal
  callLog : List (String × List PyVal)
deriving DecidableEq

/-- How a statement sequence finished: fell off the end, or executed
`return v`. -/
inductive PyFlow where
  | normal
  | returned (v : PyVal)
deriving DecidableEq

/-- Assignment to a local variable (overwrite). -/
def setVar (env : List (String × PyVal)) (x : String) (v : PyVal) :
    List (String × PyVal) :=
  (x, v) :: env.filter (fun p => p.1 != x)

def setVars (env : List (String × PyVal)) (xs : List String) (v : PyVal) :
    List (String × PyVal) :=
  xs.foldl (fun e x => setVar e x v) env

/-- The remote side of a tool proxy, as seen from inside the sandbox: the
proxy `await`s `multi_mcp.function_wrapper(tool_name, *args)`, which either
returns a value or raises. -/
def ToolOracle : Type := String → List PyVal → Except PyExc PyVal

mutual

/-- Fuel-indexed evaluator for the expression fragment, mirroring CPython
evaluation of the rewritten unit inside the sandbox of
`build_safe_globals`: names resolve to `__main` locals; `final_answer`
records its argument via `dict.setdefault` (so only when the slot is still
empty) and returns the stored value; a registered tool name dispatches to
the tool oracle and logs the invocation; any other call target is a
`NameError`.  Fuel exhaustion models a run that outlives every deadline and
surfaces as the `asyncio.TimeoutError` that `asyncio.wait_for` would
raise. -/
def evalE (tools : List String) (oracle : ToolOracle) :
    Nat → PyExpr → RunState → Except PyExc (PyVal × RunState)
  | 0, _, _ => .error pyTimeoutExc
  | Nat.succ fuel, e, st =>
    match e with
    | .ename i =>
      match st.env.find? (fun p => p.1 == i) with
      | some p => .ok (p.2, st)
      | none => .error ⟨"NameError", s!"name {i} is not defined"⟩
    | .eint n => .ok (.vint n, st)
    | .ebool b => .ok (.vbool b, st)
    | .estr s => .ok (.vstr s, st)
    | .enone => .ok (.vnone, st)
    | .eadd l r =>
      match evalE tools oracle fuel l st with
      | .error ex => .error ex
      | .ok (vl, st1) =>
        match evalE tools oracle fuel r st1 with
        | .error ex => .error ex
        | .ok (vr, st2) =>
          match vl, vr with
          | .vint a, .vint b => .ok (.vint (a + b), st2)
          | _, _ => .error ⟨"TypeError", "unsupported operand type(s) for +"⟩
    | .eawait inner => evalE tools oracle fuel inner st
    | .ecall f args _kwargs =>
      match f with
      | .ename i =>
        match evalArgs tools oracle fuel args st with
        | .error ex => .error ex
        | .ok (vs, st1) =>
          if i == "final_answer" then
            match vs with
            | [v] =>
              match st1.slot with
              | some w => .ok (w, st1)
              | none => .ok (v, { st1 with slot := some v })
            | _ =>
              .error ⟨"TypeError", "final_answer takes exactly one argument"⟩
          else if tools.contains i then
            match oracle i vs with
            | .error ex => .error ex
            | .ok r => .ok (r, { st1 with callLog := st1.callLog ++ [(i, vs)] })
          else .error ⟨"NameError", s!"name {i} is not defined"⟩
      | _ => .error ⟨"TypeError", "object is not callable"⟩

def evalArgs (tools : List String) (oracle : ToolOracle) :
    Nat → List PyExpr → RunState → Except PyExc (List PyVal × RunState)
  | _, [], st => .ok ([], st)
  | 0, _ :: _, _ => .error pyTimeoutExc
  | Nat.succ fuel, e :: es, st =>
    match evalE tools oracle fuel e st with
    | .error ex => .error ex
    | .ok (v, st1) =>
      match evalArgs tools oracle fuel es st1 with
      | .error ex => .error ex
      | .ok (vs, st2) => .ok (v :: vs, st2)

end

mutual

/-- Fuel-indexed evaluator for one statement. -/
def evalS (tools : List String) (oracle : ToolOracle) :
    Nat → PyStmt → RunState → Except PyExc (PyFlow × RunState)
  | 0, _, _ => .error pyTimeoutExc
  | Nat.succ fuel, s, st =>
    match s with
    | .sassign ts v =>
      match evalE tools oracle fuel v st with
      | .error ex => .error ex
      | .ok (w, st1) => .ok (.normal, { st1 with env := setVars st1.env ts w })
    | .sreturn none => .ok (.returned .vnone, st)
    | .sreturn (some v) =>
      match evalE tools oracle fuel v st with
      | .error ex => .error ex
      | .ok (w, st1) => .ok (.returned w, st1)
    | .sexpr e =>
      match evalE tools oracle fuel e st with
      | .error ex => .error ex
      | .ok (_, st1) => .ok (.normal, st1)
    | .sif c b o =>
      match evalE tools oracle fuel c st with
      | .error ex => .error ex
      | .ok (w, st1) =>
        if pyTruthy w then evalBody tools oracle fuel b st1
        else evalBody tools oracle fuel o st1
    | .swhile c b =>
      match evalE tools oracle fuel c st with
      | .error ex => .error ex
      | .ok (w, st1) =>
        if pyTruthy w then
          match evalBody tools oracle fuel b st1 with
          | .error ex => .error ex
          | .ok (.returned v, st2) => .ok (.returned v, st2)
          | .ok (.normal, st2) => evalS tools oracle fuel (.swhile c b) st2
        else .ok (.normal, st1)

/-- Fuel-indexed evaluator for a statement sequence; stops at the first
`return`. -/
def evalBody (tools : List String) (oracle : ToolOracle) :
    Nat → List PyStmt → RunState → Except PyExc (PyFlow × RunState)
  | _, [], st => .ok (.normal, st)
  | 0, _ :: _, _ => .error pyTimeoutExc
  | Nat.succ fuel, s :: rest, st =>
    match evalS tools oracle fuel s st with
    | .error ex => .error ex
    | .ok (.returned v, st1) => .ok (.returned v, st1)
    | .ok (.normal, st1) => evalBody tools oracle fuel rest st1

end

/-- Observable milestones of one `run_user_code` invocation, used to state
that a path returned before a given stage: the tool-proxy map was built
(line 97), the wrapped unit was compiled (line 131), and the unit was
started under the given deadline in seconds (lines 135-136). -/
inductive ExecEvent where
  | builtProxies
  | compiled
  | ran (deadline : Nat)
deriving DecidableEq

/-- The error-shaped `ExecutionResult` dictionary built at every error exit
of `run_user_code`, field order as in the source. -/
def errEnvelope (msg ts tt : String) : List (String × String) :=
  [("status", "error"), ("error", msg), ("execution_time", ts),
   ("total_time", tt)]

/-- The success-shaped `ExecutionResult` dictionary of `run_user_code`. -/
def okEnvelope (res ts tt : String) : List (String × String) :=
  [("status", "success"), ("result", res), ("execution_time", ts),
   ("total_time", tt)]

/-- The environment one `run_user_code` invocation runs in: the registered
tool names (from `multi_mcp.get_all_tools()`), the tool oracle behind
`function_wrapper`, whether the wall-clock deadline elapses before the unit
finishes, the evaluation fuel, and the two clock-derived strings (the start
timestamp and the rounded elapsed seconds). -/
structure ExecEnv where
  tools : List String
  oracle : ToolOracle
  timedOut : Bool
  fuel : Nat
  startTimestamp : String
  elapsedStr : String

/-- Lines 108-116 of `executor.py`: `has_return` and `has_result` inspect
only the top-level statements; when there is no top-level `return` but
there is a top-level assignment to `result`, an implicit `return result`
is appended. -/
def hasReturnTop (tree : List PyStmt) : Bool :=
  tree.any fun s => match s with | .sreturn _ => true | _ => false

def hasResultTop (tree : List PyStmt) : Bool :=
  tree.any fun s => match s with
    | .sassign ts _ => ts.contains "result"
    | _ => false

def appendImplicitReturn (tree : List PyStmt) : List PyStmt :=
  if !hasReturnTop tree && hasResultTop tree then
    tree ++ [.sreturn (some (.ename "result"))]
  else tree

/-- The rewriting pipeline of `run_user_code` in source order: implicit
result capture, keyword stripping, implicit awaiting of tool calls. -/
def rewriteTree (tools : List String) (tree : List PyStmt) : List PyStmt :=
  awaitTfBody tools (stripKwBody (appendImplicitReturn tree))

/-- `await asyncio.wait_for(local_vars["__main"](), timeout=timeout)`:
either the deadline elapses first and `asyncio.TimeoutError` is raised, or
the rewritten unit runs to its outcome in a fresh sandbox. -/
def runBody (env : ExecEnv) (tree : List PyStmt) :
    Except PyExc (PyFlow × RunState) :=
  if env.timedOut then .error pyTimeoutExc
  else evalBody env.tools env.oracle env.fuel (rewriteTree env.tools tree)
    ⟨[], none, []⟩

/-- `run_user_code` from `executor.py`.  The input is the result of
`ast.parse` on the program text (a parse failure is the `SyntaxError` the
outer handler catches).  Returns the `ExecutionResult` dictionary together
with the milestone trace. -/
def runUserCode (parsed : Except PyExc (List PyStmt)) (env : ExecEnv) :
    List (String × String) × List ExecEvent :=
  match parsed with
  | .error e =>
    -- outer `except Exception`: `"error": str(e)`
    (errEnvelope e.msg env.startTimestamp env.elapsedStr, [])
  | .ok tree =>
    let funcCount := countFunctionCalls tree
    if funcCount > MAX_FUNCTIONS then
      (errEnvelope (s!"Too many functions ({funcCount} > {MAX_FUNCTIONS})")
        env.startTimestamp env.elapsedStr, [])
    else
      let deadline := max 3 (funcCount * TIMEOUT_PER_FUNCTION)
      let trace := [ExecEvent.builtProxies, ExecEvent.compiled,
        ExecEvent.ran deadline]
      match runBody env tree with
      | .error e =>
        -- inner `except Exception` (it also catches `asyncio.TimeoutError`,
        -- which subclasses `Exception`, so the dedicated outer
        -- `except asyncio.TimeoutError` handler is unreachable):
        -- `"error": f"TypeName: message"`
        (errEnvelope (s!"{e.typeName}: {e.msg}")
          env.startTimestamp env.elapsedStr, trace)
      | .ok (flow, st) =>
        let returned : PyVal :=
          match flow with
          | .returned v => v
          | .normal => .vnone
        let resultValue : PyVal :=
          if returned = .vnone then st.slot.getD (.vstr "None") else returned
        match resultValue with
        | .vraw true content =>
          let m :=
            match content with
            | t :: _ => t.trim
            | [] => pyStr resultValue
          (errEnvelope m env.startTimestamp env.elapsedStr, trace)
        | _ =>
          (okEnvelope (pyStr resultValue) env.startTimestamp env.elapsedStr,
            trace)

/-- Parsed JSON values, the result of `json.loads` on a reply block. -/
inductive PyJson where
  | jnull
  | jbool (b : Bool)
  | jnum (n : Int)
  | jstr (s : String)
  | jarr (xs : List PyJson)
  | jobj (fields : List (String × PyJson))

def PyJson.isObj : PyJson → Bool
  | .jobj _ => true
  | _ => false

/-- An MCP `CallToolResult` as `function_wrapper` sees it: the `isError`
flag and the `text` of each content block. -/
structure RawReply where
  isErrorFlag : Bool
  content : List String

/-- A tool input schema as read by `function_wrapper`: the ordered names
under `properties`, and the `$defs` map (each definition reduced to the
ordered names under its own `properties`). -/
structure ToolSchema where
  properties : List String
  defs : List (String × List String)

/-- The argument payload sent to `call_tool`: either the parameter names
bound directly, or the same binding nested under the conventional
`"input"` key. -/
inductive BoundPayload where
  | flat (binds : List (String × PyVal))
  | nested (binds : List (String × PyVal))
deriving DecidableEq

/-- What `function_wrapper` returns: a value extracted from the parsed
reply text, or the raw reply object when extraction or parsing failed. -/
inductive WResult where
  | val (j : PyJson)
  | raw (r : RawReply)

/-- `ast.literal_eval` on one parsed argument expression: only literals
evaluate; names, calls, `await` and `+` on integers are malformed nodes. -/
def literalEval : PyExpr → Except PyExc PyVal
  | .eint n => .ok (.vint n)
  | .ebool b => .ok (.vbool b)
  | .estr s => .ok (.vstr s)
  | .enone => .ok .vnone
  | _ => .error ⟨"ValueError", "malformed node or string"⟩

/-- Whether an argument expression is one of the literal forms
`ast.literal_eval` accepts in this fragment. -/
def isLiteralE : PyExpr → Bool
  | .eint _ => true
  | .ebool _ => true
  | .estr _ => true
  | .enone => true
  | _ => false

/-- `[ast.literal_eval(arg) for arg in expr.args]`: the first failure
aborts the comprehension. -/
def literalEvalList : List PyExpr → Except PyExc (List PyVal)
  | [] => .ok []
  | e :: es =>
    match literalEval e with
    | .error ex => .error ex
    | .ok v =>
      match literalEvalList es with
      | .error ex => .error ex
      | .ok vs => .ok (v :: vs)

/-- The `ValueError` re-raised at line 120 of `multiMCP.py` when the
string-call form cannot be parsed into a name applied to literals. -/
def parseFailExc : PyExc := ⟨"ValueError", "Failed to parse function string"⟩

/-- Input to `function_wrapper`: positional form `(tool_name, *args)`, or
the string-call form, carried as the outcome of
`ast.parse(stripped, mode=eval).body` on the string. -/
inductive WInput where
  | pos (name : String) (args : List PyVal)
  | strForm (parsed : Except PyExc PyExpr)

/-- Lines 110-120 of `multiMCP.py`: the string-call form must parse to a
call of a bare name, and every argument must `literal_eval`; any failure
(parse error, wrong shape, non-literal argument) is the dispatch
`ValueError`, raised before the tool lookup.  Keyword arguments in the
string form are dropped, as `expr.args` alone is evaluated. -/
def resolveWInput : WInput → Except PyExc (String × List PyVal)
  | .pos nm args => .ok (nm, args)
  | .strForm (.error _) => .error parseFailExc
  | .strForm (.ok (.ecall (.ename nm) args _kws)) =>
    match literalEvalList args with
    | .ok vs => .ok (nm, vs)
    | .error _ => .error parseFailExc
  | .strForm (.ok _) => .error parseFailExc

/-- The message of the argument-count dispatch error at lines 138/143. -/
def countMsg (nm : String) (expected got : Nat) : String :=
  s!"{nm} expects {expected} args, got {got}"

/-- Lines 129-144 of `multiMCP.py`: bind the supplied arguments against
the declared parameter list.  A schema whose `properties` contain
`"input"` is the nested convention: the real parameter names are the
`properties` of the first `$defs` entry and the binding is nested under
`"input"`; otherwise the binding is flat.  In both shapes an argument
count differing from the declared parameter count raises the counting
`ValueError` before any remote call. -/
def bindArgs (nm : String) (schema : ToolSchema) (args : List PyVal) :
    Except PyExc BoundPayload :=
  if schema.properties.contains "input" then
    match schema.defs with
    | [] => .error ⟨"KeyError", "None"⟩
    | (_, innerProps) :: _ =>
      if innerProps.length = args.length then
        .ok (.nested (innerProps.zip args))
      else .error ⟨"ValueError", countMsg nm innerProps.length args.length⟩
  else
    if schema.properties.length = args.length then
      .ok (.flat (schema.properties.zip args))
    else
      .error ⟨"ValueError", countMsg nm schema.properties.length args.length⟩

/-- Lines 149-162 of `multiMCP.py`: take the first content block's text,
strip it, `json.loads` it; a mapping with a `"result"` key yields that
key's value, a single-entry mapping yields its sole value, any other
mapping or a primitive is returned as-is, and any extraction or parsing
failure falls back to the raw reply object. -/
def normalizeReply (loads : String → Except Unit PyJson) (r : RawReply) :
    WResult :=
  match r.content with
  | [] => .raw r
  | t :: _ =>
    match loads t.trim with
    | .error _ => .raw r
    | .ok j =>
      match j with
      | .jobj fields =>
        match fields.find? (fun p => p.1 == "result") with
        | some p => .val p.2
        | none =>
          match fields with
          | [p] => .val p.2
          | _ => .val (.jobj fields)
      | _ => .val j

/-- `MultiMCP.function_wrapper`: resolve the input form, look the tool up,
bind the arguments against its schema, drive the remote call (the
`callOracle`, standing for the spawn/handshake/invoke/teardown of
`call_tool`), and normalize the reply. -/
def functionWrapper (tm : List (String × ToolSchema))
    (callOracle : String → BoundPayload → Except PyExc RawReply)
    (loads : String → Except Unit PyJson) (inp : WInput) :
    Except PyExc WResult :=
  match resolveWInput inp with
  | .error e => .error e
  | .ok (nm, args) =>
    match tm.find? (fun p => p.1 == nm) with
    | none => .error ⟨"ValueError", s!"Tool {nm} not found."⟩
    | some entry =>
      match bindArgs nm entry.2 args with
      | .error e => .error e
      | .ok payload =>
        match callOracle nm payload with
        | .error e => .error e
        | .ok r => .ok (normalizeReply loads r)

/-- One configured MCP server (`server_configs` entry). -/
structure MCPConfig where
  id : String
  script : String
deriving DecidableEq

/-- One tool as returned by a server's `list_tools`. -/
structure MCPTool where
  name : String
  schema : ToolSchema

/-- The state `MultiMCP.initialize` builds: `tool_map` (tool name to owning
config and tool, later registration shadowing earlier) and `server_tools`
(config id to its tools). -/
structure MCPState where
  toolMap : List (String × (MCPConfig × MCPTool))
  serverTools : List (String × List MCPTool)

/-- Register one listed tool (lines 71-78): overwrite the `tool_map`
entry for its name and append it to the owning server's `server_tools`
list. -/
def registerOne (st : MCPState) (c : MCPConfig) (t : MCPTool) : MCPState :=
  { toolMap := (t.name, (c, t)) :: st.toolMap,
    serverTools :=
      match st.serverTools.find? (fun p => p.1 == c.id) with
      | some _ =>
        st.serverTools.map
          (fun p => if p.1 == c.id then (p.1, p.2 ++ [t]) else p)
      | none => st.serverTools ++ [(c.id, [t])] }

/-- Register every tool a server listed, in order (lines 70-78). -/
def registerAll : MCPState → MCPConfig → List MCPTool → MCPState
  | st, _, [] => st
  | st, c, t :: ts => registerAll (registerOne st c t) c ts

/-- The body of one iteration of the `initialize` loop before its
`except` clauses: spawn the server, handshake, list its tools (all three
folded into the probe oracle, any of them may raise), then register every
listed tool. -/
def initStepBody (probe : MCPConfig → Except PyExc (List MCPTool))
    (st : MCPState) (c : MCPConfig) : Except PyExc MCPState :=
  match probe c with
  | .error e => .error e
  | .ok ts => .ok (registerAll st c ts)

/-- One iteration of the `initialize` loop with its `except` clauses: a
config whose probe raises anywhere is logged and skipped, leaving the
state untouched. -/
def initStep (probe : MCPConfig → Except PyExc (List MCPTool))
    (st : MCPState) (c : MCPConfig) : MCPState :=
  match initStepBody probe st c with
  | .ok st1 => st1
  | .error _ => st

/-- The `for config in self.server_configs` loop of `initialize`. -/
def initLoop (probe : MCPConfig → Except PyExc (List MCPTool)) :
    MCPState → List MCPConfig → MCPState
  | st, [] => st
  | st, c :: cs => initLoop probe (initStep probe st c) cs

/-- `MultiMCP.initialize`: probe every configured server in order,
skipping the ones that fail. -/
def initServers (probe : MCPConfig → Except PyExc (List MCPTool))
    (configs : List MCPConfig) : MCPState :=
  initLoop probe ⟨[], []⟩ configs

mutual

/-- Whether an expression contains a call whose target is the bare name
`nm` (the only way the embedded fragment can invoke `final_answer` or a
tool). -/
def callsNameE (nm : String) : PyExpr → Bool
  | .ename _ => false
  | .eint _ => false
  | .ebool _ => false
  | .estr _ => false
  | .enone => false
  | .eadd l r => callsNameE nm l || callsNameE nm r
  | .ecall f args kwargs =>
    (match f with | .ename i => i == nm | _ => false) ||
      callsNameE nm f || callsNameArgs nm args || callsNameKw nm kwargs
  | .eawait e => callsNameE nm e

def callsNameArgs (nm : String) : List PyExpr → Bool
  | [] => false
  | e :: es => callsNameE nm e || callsNameArgs nm es

def callsNameKw (nm : String) : List (String × PyExpr) → Bool
  | [] => false
  | (_, e) :: es => callsNameE nm e || callsNameKw nm es

end

mutual

def callsNameS (nm : String) : PyStmt → Bool
  | .sassign _ v => callsNameE nm v
  | .sreturn none => false
  | .sreturn (some v) => callsNameE nm v
  | .sexpr e => callsNameE nm e
  | .sif c b o => callsNameE nm c || callsNameBody nm b || callsNameBody nm o
  | .swhile c b => callsNameE nm c || callsNameBody nm b

def callsNameBody (nm : String) : List PyStmt → Bool
  | [] => false
  | s :: rest => callsNameS nm s || callsNameBody nm rest

end

mutual

/-- Whether a statement contains a `return` anywhere, compound bodies
included (contrast `hasReturnTop`, which inspects only the top level). -/
def hasReturnDeepS : PyStmt → Bool
  | .sassign _ _ => false
  | .sreturn _ => true
  | .sexpr _ => false
  | .sif _ b o => hasReturnDeepBody b || hasReturnDeepBody o
  | .swhile _ b => hasReturnDeepBody b

def hasReturnDeepBody : List PyStmt → Bool
  | [] => false
  | s :: rest => hasReturnDeepS s || hasReturnDeepBody rest

end

/-- The scalar values `ast.literal_eval` can produce in this fragment
(everything except a raw reply object). -/
def isScalar : PyVal → Bool
  | .vraw _ _ => false
  | _ => true

/-- The literal expression denoting a scalar value, as it would appear in
the string-call form `name(lit1, ..., litn)` after parsing. -/
def litOfVal : PyVal → PyExpr
  | .vnone => .enone
  | .vint n => .eint n
  | .vbool b => .ebool b
  | .vstr s => .estr s
  | .vraw _ _ => .enone

/-- A concrete execution environment used by the concrete instances below:
no registered tools, an oracle that rejects every call, no deadline
elapse, and fixed clock strings. -/
def egEnv : ExecEnv where
  tools := []
  oracle := fun _ _ => .error ⟨"RuntimeError", "no tools"⟩
  timedOut := false
  fuel := 32
  startTimestamp := "2025-01-01 00:00:00"
  elapsedStr := "0.001"

/-- `egEnv` with the deadline elapsing before the unit finishes. -/
def egEnvTimeout : ExecEnv := { egEnv with timedOut := true }

/-- C1: for every input program (parse outcome) and environment,
`run_user_code` returns a dictionary of the uniform `ExecutionResult`
shape — `status` is `"success"` with the payload under `"result"` or
`"error"` with the payload under `"error"`, the start timestamp under
`"execution_time"` and the elapsed-seconds string under `"total_time"` —
and never propagates an exception to its caller: parse failures, dispatch
failures and faults of the running program all land in one of the two
envelope shapes. -/
theorem c1_uniform_result_envelope (parsed : Except PyExc (List PyStmt))
    (env : ExecEnv) :
    (∃ m, (runUserCode parsed env).1 =
      errEnvelope m env.startTimestamp env.elapsedStr) ∨
    (∃ r, (runUserCode parsed env).1 =
      okEnvelope r env.startTimestamp env.elapsedStr) := by
  unfold runUserCode
  rcases parsed with e | tree
  · exact .inl ⟨e.msg, rfl⟩
  · by_cases h : countFunctionCalls tree > MAX_FUNCTIONS
    · simp only [h, if_true]
      exact .inl ⟨_, rfl⟩
    · simp only [h, if_false]
      rcases hr : runBody env tree with e | out
      · exact .inl ⟨_, rfl⟩
      · obtain ⟨flow, st⟩ := out
        dsimp only
        split
        · exact .inl ⟨_, rfl⟩
        · exact .inr ⟨_, rfl⟩

/-- C2: a program with more than `MAX_FUNCTIONS` (5) call expressions is
rejected with the descriptive ceiling message before anything else
happens: the milestone trace is empty, so no tool proxy was built, nothing
was rewritten or compiled, and the unit never ran — the envelope is
produced immediately after counting. -/
theorem c2_complexity_gate_rejects (parsed : Except PyExc (List PyStmt))
    (env : ExecEnv) (tree : List PyStmt)
    (h1 : parsed = .ok tree)
    (h2 : MAX_FUNCTIONS < countFunctionCalls tree) :
    runUserCode parsed env =
      (errEnvelope
        (s!"Too many functions ({countFunctionCalls tree} > {MAX_FUNCTIONS})")
        env.startTimestamp env.elapsedStr, []) := by
  subst h1
  unfold runUserCode
  simp [h2]

/-- Closed instance of `c2_complexity_gate_rejects`: a program of six
distinct calls is rejected with the counting message and an empty
milestone trace. -/
theorem c2_complexity_gate_rejects_witness :
    runUserCode
      (.ok (List.replicate 6 (PyStmt.sexpr (.ecall (.ename "f") [] []))))
      egEnv =
      (errEnvelope "Too many functions (6 > 5)"
        egEnv.startTimestamp egEnv.elapsedStr, []) := by
  have h := c2_complexity_gate_rejects
    (.ok (List.replicate 6 (PyStmt.sexpr (.ecall (.ename "f") [] []))))
    egEnv (List.replicate 6 (PyStmt.sexpr (.ecall (.ename "f") [] [])))
    rfl (by decide)
  exact h

/-- C3 (code bug): the compiled unit does run under the deadline
`max(3, call_count * 500)` — the `ran` milestone carries exactly that
budget, at least the 3-second floor even for zero calls — but when the
deadline elapses first, the error envelope carries the message
`"TimeoutError: "` produced by the generic inner `except Exception`
handler (`asyncio.TimeoutError` subclasses `Exception`), not a message
citing the configured budget: the dedicated
`except asyncio.TimeoutError` handler of lines 175-181 is unreachable. -/
theorem c3_timeout_reported_without_budget (parsed : Except PyExc (List PyStmt))
    (env : ExecEnv) (tree : List PyStmt)
    (h1 : parsed = .ok tree)
    (h2 : ¬ MAX_FUNCTIONS < countFunctionCalls tree)
    (h3 : env.timedOut = true) :
    runUserCode parsed env =
      (errEnvelope "TimeoutError: " env.startTimestamp env.elapsedStr,
       [ExecEvent.builtProxies, ExecEvent.compiled,
        ExecEvent.ran (max 3 (countFunctionCalls tree * TIMEOUT_PER_FUNCTION))]) := by
  subst h1
  unfold runUserCode runBody
  simp [h2, h3]
  rfl

/-- Closed instance of `c3_timeout_reported_without_budget`: a program
with one tool call whose run outlives the 500-second budget yields the
budget-free message `"TimeoutError: "`. -/
theorem c3_timeout_reported_without_budget_witness :
    runUserCode (.ok [PyStmt.sexpr (.ecall (.ename "f") [] [])]) egEnvTimeout =
      (errEnvelope "TimeoutError: " egEnvTimeout.startTimestamp
        egEnvTimeout.elapsedStr,
       [ExecEvent.builtProxies, ExecEvent.compiled, ExecEvent.ran 500]) := by
  have h := c3_timeout_reported_without_budget
    (.ok [PyStmt.sexpr (.ecall (.ename "f") [] [])]) egEnvTimeout
    [PyStmt.sexpr (.ecall (.ename "f") [] [])] rfl (by decide) rfl
  exact h


/-- C4: the reported value follows the preference order of lines 138 and
108-116 — the unit's return value when it is not `None`; otherwise the
value recorded by the `final_answer` sink; otherwise the literal string
`"None"` — and the program `result = 2 + 2` (no explicit return, no tool
calls) gets an implicit `return result` appended and reports
status `"success"` with result `"4"` under the 3-second floor. -/
theorem c4_result_preference_order :
    (∀ (env : ExecEnv) (tree : List PyStmt) (flow : PyFlow) (st : RunState),
      ¬ MAX_FUNCTIONS < countFunctionCalls tree →
      runBody env tree = .ok (flow, st) →
      ((∀ v, flow = .returned v → v ≠ .vnone → (∀ c, v ≠ .vraw true c) →
         (runUserCode (.ok tree) env).1 =
           okEnvelope (pyStr v) env.startTimestamp env.elapsedStr) ∧
       ((flow = .normal ∨ flow = .returned .vnone) →
         ∀ w, st.slot = some w → (∀ c, w ≠ .vraw true c) →
         (runUserCode (.ok tree) env).1 =
           okEnvelope (pyStr w) env.startTimestamp env.elapsedStr) ∧
       ((flow = .normal ∨ flow = .returned .vnone) → st.slot = none →
         (runUserCode (.ok tree) env).1 =
           okEnvelope "None" env.startTimestamp env.elapsedStr))) ∧
    (∀ (tools : List String) (o : ToolOracle) (ts tt : String),
      runUserCode (.ok [PyStmt.sassign ["result"] (.eadd (.eint 2) (.eint 2))])
        { tools := tools, oracle := o, timedOut := false, fuel := 9,
          startTimestamp := ts, elapsedStr := tt } =
      (okEnvelope "4" ts tt,
       [ExecEvent.builtProxies, ExecEvent.compiled, ExecEvent.ran 3])) := by
  constructor
  · intro env tree flow st hcnt hrun
    refine ⟨?_, ?_, ?_⟩
    · intro v hv hne hnr
      subst hv
      unfold runUserCode
      dsimp only
      rw [if_neg hcnt, hrun]
      dsimp only
      rw [if_neg hne]
      cases v with
      | vnone => exact absurd rfl hne
      | vint n => rfl
      | vbool b => rfl
      | vstr s => rfl
      | vraw ie c =>
        cases ie with
        | false => rfl
        | true => exact absurd rfl (hnr c)
    · intro hfl w hw hnr
      unfold runUserCode
      dsimp only
      rw [if_neg hcnt, hrun]
      have hsel :
          (match (motive := PyFlow → PyVal) flow with
            | .returned v => v
            | .normal => PyVal.vnone) = PyVal.vnone := by
        rcases hfl with h | h <;> subst h <;> rfl
      dsimp only
      rw [hsel, if_pos rfl, hw]
      cases w with
      | vnone => rfl
      | vint n => rfl
      | vbool b => rfl
      | vstr s => rfl
      | vraw ie c =>
        cases ie with
        | false => rfl
        | true => exact absurd rfl (hnr c)
    · intro hfl hw
      unfold runUserCode
      dsimp only
      rw [if_neg hcnt, hrun]
      have hsel :
          (match (motive := PyFlow → PyVal) flow with
            | .returned v => v
            | .normal => PyVal.vnone) = PyVal.vnone := by
        rcases hfl with h | h <;> subst h <;> rfl
      dsimp only
      rw [hsel, if_pos rfl, hw]
      rfl
  · intro tools o ts tt
    rfl

/-- Closed instance of `c4_result_preference_order`: a unit returning `7`
reports success `"7"`. -/
theorem c4_result_preference_order_witness :
    (runUserCode (.ok [PyStmt.sreturn (some (.eint 7))]) egEnv).1 =
      okEnvelope "7" egEnv.startTimestamp egEnv.elapsedStr := by
  have h := (c4_result_preference_order.1 egEnv
    [PyStmt.sreturn (some (.eint 7))] (.returned (.vint 7)) ⟨[], none, []⟩
    (by decide) rfl).1 (.vint 7) rfl (by decide)
    (fun c hc => PyVal.noConfusion hc)
  exact h

theorem literalEval_litOfVal (v : PyVal) (h : isScalar v = true) :
    literalEval (litOfVal v) = .ok v := by
  cases v <;> first | rfl | simp [isScalar] at h

theorem literalEvalList_map (vs : List PyVal) (h : vs.all isScalar = true) :
    literalEvalList (vs.map litOfVal) = .ok vs := by
  induction vs with
  | nil => rfl
  | cons v rest ih =>
    rw [List.all_cons, Bool.and_eq_true] at h
    simp only [List.map, literalEvalList, literalEval_litOfVal v h.1,
      ih h.2]

theorem literalEval_of_not_literal (a : PyExpr) (h : isLiteralE a = false) :
    ∃ ex, literalEval a = .error ex := by
  cases a <;> first | exact ⟨_, rfl⟩ | simp [isLiteralE] at h

theorem literalEval_of_literal (a : PyExpr) (h : isLiteralE a = true) :
    ∃ v, literalEval a = .ok v := by
  cases a <;> first | exact ⟨_, rfl⟩ | simp [isLiteralE] at h

theorem literalEvalList_err (args : List PyExpr)
    (h : args.any (fun a => !isLiteralE a) = true) :
    ∃ ex, literalEvalList args = .error ex := by
  induction args with
  | nil => exact absurd h (by decide)
  | cons a rest ih =>
    rw [List.any_cons, Bool.or_eq_true] at h
    by_cases ha : isLiteralE a = true
    · obtain ⟨v, hv⟩ := literalEval_of_literal a ha
      have hrest : rest.any (fun a => !isLiteralE a) = true := by
        rcases h with h | h
        · rw [Bool.not_eq_true'] at h
          exact absurd h (by simp [ha])
        · exact h
      obtain ⟨ex, hex⟩ := ih hrest
      exact ⟨ex, by simp only [literalEvalList, hv, hex]⟩
    · rw [Bool.not_eq_true] at ha
      obtain ⟨ex, hex⟩ := literalEval_of_not_literal a ha
      exact ⟨ex, by simp only [literalEvalList, hex]⟩

/-- C5: for a registered tool and literal argument values, the
string-call form `name(lit1, ..., litn)` and the positional form
`(name, v1, ..., vn)` run through `function_wrapper` to identical
results (they share lookup, binding, remote call and normalization),
while a string form whose arguments are not all literals fails with the
dispatch `ValueError` uniformly in the tool map, the remote oracle and
the JSON parser — before any lookup or remote work. -/
theorem c5_string_call_matches_positional :
    (∀ (tm : List (String × ToolSchema))
       (o : String → BoundPayload → Except PyExc RawReply)
       (loads : String → Except Unit PyJson) (nm : String) (vs : List PyVal),
       vs.all isScalar = true →
       functionWrapper tm o loads
         (.strForm (.ok (.ecall (.ename nm) (vs.map litOfVal) []))) =
       functionWrapper tm o loads (.pos nm vs)) ∧
    (∀ (tm : List (String × ToolSchema))
       (o : String → BoundPayload → Except PyExc RawReply)
       (loads : String → Except Unit PyJson) (nm : String)
       (args : List PyExpr) (kws : List (String × PyExpr)),
       args.any (fun a => !isLiteralE a) = true →
       functionWrapper tm o loads (.strForm (.ok (.ecall (.ename nm) args kws))) =
         .error parseFailExc) := by
  constructor
  · intro tm o loads nm vs h
    simp only [functionWrapper, resolveWInput, literalEvalList_map vs h]
  · intro tm o loads nm args kws h
    obtain ⟨ex, hex⟩ := literalEvalList_err args h
    simp only [functionWrapper, resolveWInput, hex]

/-- Closed instance of `c5_string_call_matches_positional`: the string
form `add(3, 4)` and the positional form agree, and a string form whose
argument is itself a call is the dispatch error. -/
theorem c5_string_call_matches_positional_witness :
    (functionWrapper [("add", ⟨["a", "b"], []⟩)]
      (fun _ _ => .ok ⟨false, ["7"]⟩) (fun _ => .error ())
      (.strForm (.ok (.ecall (.ename "add")
        [litOfVal (.vint 3), litOfVal (.vint 4)] []))) =
     functionWrapper [("add", ⟨["a", "b"], []⟩)]
      (fun _ _ => .ok ⟨false, ["7"]⟩) (fun _ => .error ())
      (.pos "add" [.vint 3, .vint 4])) ∧
    functionWrapper [("add", ⟨["a", "b"], []⟩)]
      (fun _ _ => .ok ⟨false, ["7"]⟩) (fun _ => .error ())
      (.strForm (.ok (.ecall (.ename "add")
        [.ecall (.ename "add") [.eint 1, .eint 2] []] []))) =
      .error parseFailExc := by
  constructor
  · exact c5_string_call_matches_positional.1 _ _ _ "add"
      [.vint 3, .vint 4] (by decide)
  · exact c5_string_call_matches_positional.2 _ _ _ "add"
      [.ecall (.ename "add") [.eint 1, .eint 2] []] [] (by decide)

/-- C6: reply normalization applies its rules in precedence order to the
parsed text of the first content block — a mapping with a `"result"` key
yields that key's value (even when other keys are present); otherwise a
single-entry mapping yields its sole value; otherwise any other mapping or
a primitive is returned as-is; and when there is no content block or the
text does not parse, the raw reply object is returned unchanged. -/
theorem c6_reply_normalization_precedence
    (loads : String → Except Unit PyJson) (r : RawReply) :
    (r.content = [] → normalizeReply loads r = .raw r) ∧
    (∀ t rest, r.content = t :: rest → loads t.trim = .error () →
      normalizeReply loads r = .raw r) ∧
    (∀ t rest fields p, r.content = t :: rest →
      loads t.trim = .ok (.jobj fields) →
      fields.find? (fun q => q.1 == "result") = some p →
      normalizeReply loads r = .val p.2) ∧
    (∀ t rest p, r.content = t :: rest → loads t.trim = .ok (.jobj [p]) →
      p.1 ≠ "result" → normalizeReply loads r = .val p.2) ∧
    (∀ t rest fields, r.content = t :: rest →
      loads t.trim = .ok (.jobj fields) →
      fields.find? (fun q => q.1 == "result") = none → fields.length ≠ 1 →
      normalizeReply loads r = .val (.jobj fields)) ∧
    (∀ t rest j, r.content = t :: rest → loads t.trim = .ok j →
      j.isObj = false → normalizeReply loads r = .val j) := by
  refine ⟨?_, ?_, ?_, ?_, ?_, ?_⟩
  · intro h
    simp [normalizeReply, h]
  · intro t rest h hl
    simp [normalizeReply, h, hl]
  · intro t rest fields p h hl hf
    simp [normalizeReply, h, hl, hf]
  · intro t rest p h hl hp
    have hb : (p.1 == "result") = false := beq_eq_false_iff_ne.mpr hp
    have hf : ([p].find? (fun q => q.1 == "result")) = none := by
      simp [List.find?, hb]
    simp [normalizeReply, h, hl, hf]
  · intro t rest fields h hl hf hlen
    rcases fields with _ | ⟨p, rest2⟩
    · simp [normalizeReply, h, hl, hf]
    · rcases rest2 with _ | ⟨q, rest3⟩
      · exact absurd rfl hlen
      · simp [normalizeReply, h, hl, hf]
  · intro t rest j h hl hj
    cases j with
    | jobj fields => simp [PyJson.isObj] at hj
    | jnull => simp [normalizeReply, h, hl]
    | jbool b => simp [normalizeReply, h, hl]
    | jnum n => simp [normalizeReply, h, hl]
    | jstr s => simp [normalizeReply, h, hl]
    | jarr xs => simp [normalizeReply, h, hl]

/-- Closed instance of `c6_reply_normalization_precedence`: a two-entry
mapping containing `"result"` yields the value under `"result"`. -/
theorem c6_reply_normalization_precedence_witness :
    normalizeReply
      (fun _ => .ok (.jobj [("other", .jnum 1), ("result", .jnum 7)]))
      ⟨false, ["r"]⟩ = .val (.jnum 7) := by
  have h := (c6_reply_normalization_precedence
    (fun _ => .ok (.jobj [("other", .jnum 1), ("result", .jnum 7)]))
    ⟨false, ["r"]⟩).2.2.1 "r" [] [("other", .jnum 1), ("result", .jnum 7)]
    ("result", .jnum 7) rfl rfl rfl
  exact h

/-- C7: a schema wrapping its parameter list under the `"input"`
convention binds the supplied arguments to the same parameter names, in
the same declared order, as the equivalent flat schema — the only
difference being the nesting of the binding under the `"input"` key — and
in both shapes an argument count differing from the declared parameter
count is the dispatch `ValueError` naming the expected and actual counts,
produced by `function_wrapper` uniformly in the remote oracle, i.e.
before any remote call. -/
theorem c7_nested_schema_binds_like_flat (nm k : String)
    (names : List String) (args : List PyVal) (F N : ToolSchema)
    (rest : List (String × List String))
    (hF : F.properties = names)
    (hFi : names.contains "input" = false)
    (hNi : N.properties.contains "input" = true)
    (hNd : N.defs = (k, names) :: rest) :
    (args.length = names.length →
      bindArgs nm F args = .ok (.flat (names.zip args)) ∧
      bindArgs nm N args = .ok (.nested (names.zip args))) ∧
    (args.length ≠ names.length →
      bindArgs nm F args =
        .error ⟨"ValueError", countMsg nm names.length args.length⟩ ∧
      bindArgs nm N args =
        .error ⟨"ValueError", countMsg nm names.length args.length⟩ ∧
      (∀ (o : String → BoundPayload → Except PyExc RawReply)
         (loads : String → Except Unit PyJson),
        functionWrapper [(nm, F)] o loads (.pos nm args) =
          .error ⟨"ValueError", countMsg nm names.length args.length⟩ ∧
        functionWrapper [(nm, N)] o loads (.pos nm args) =
          .error ⟨"ValueError", countMsg nm names.length args.length⟩)) := by
  have hFbind : bindArgs nm F args =
      (if names.length = args.length then .ok (.flat (names.zip args))
       else .error ⟨"ValueError", countMsg nm names.length args.length⟩) := by
    simp only [bindArgs, hF, hFi]
    rw [if_neg (by simp)]
  have hNbind : bindArgs nm N args =
      (if names.length = args.length then .ok (.nested (names.zip args))
       else .error ⟨"ValueError", countMsg nm names.length args.length⟩) := by
    simp only [bindArgs, hNi, hNd, if_true]
  constructor
  · intro hlen
    rw [hFbind, hNbind, if_pos hlen.symm, if_pos hlen.symm]
    exact ⟨rfl, rfl⟩
  · intro hlen
    have hne : ¬ names.length = args.length := fun h => hlen h.symm
    refine ⟨by rw [hFbind, if_neg hne], by rw [hNbind, if_neg hne], ?_⟩
    intro o loads
    constructor
    · simp [functionWrapper, resolveWInput, hFbind, if_neg hne]
    · simp [functionWrapper, resolveWInput, hNbind, if_neg hne]

/-- Closed instance of `c7_nested_schema_binds_like_flat`: with declared
parameters `a, b`, both the flat and the `"input"`-wrapped schema bind
`(3, 4)` to `a := 3, b := 4` in order, nested or not. -/
theorem c7_nested_schema_binds_like_flat_witness :
    bindArgs "add" ⟨["a", "b"], []⟩ [.vint 3, .vint 4] =
      .ok (.flat [("a", .vint 3), ("b", .vint 4)]) ∧
    bindArgs "add" ⟨["input"], [("AddInput", ["a", "b"])]⟩ [.vint 3, .vint 4] =
      .ok (.nested [("a", .vint 3), ("b", .vint 4)]) := by
  have h := (c7_nested_schema_binds_like_flat "add" "AddInput" ["a", "b"]
    [.vint 3, .vint 4] ⟨["a", "b"], []⟩
    ⟨["input"], [("AddInput", ["a", "b"])]⟩ [] rfl (by decide) (by decide)
    rfl).1 rfl
  exact h

theorem registerAll_find (nm : String) (c : MCPConfig) :
    ∀ (ts : List MCPTool) (st : MCPState),
    (((registerAll st c ts).toolMap.find? (fun p => p.1 == nm)).isSome = true) ↔
    ((st.toolMap.find? (fun p => p.1 == nm)).isSome = true ∨
      ∃ t ∈ ts, t.name = nm) := by
  intro ts
  induction ts with
  | nil => simp [registerAll]
  | cons t ts ih =>
    intro st
    rw [registerAll, ih]
    by_cases hb : t.name = nm
    · simp [registerOne, List.find?, hb]
    · have hb2 : (t.name == nm) = false := beq_eq_false_iff_ne.mpr hb
      simp only [registerOne, List.find?, hb2]
      constructor
      · rintro (h | ⟨t2, ht2, hn⟩)
        · exact .inl h
        · exact .inr ⟨t2, List.mem_cons_of_mem _ ht2, hn⟩
      · rintro (h | ⟨t2, ht2, hn⟩)
        · exact .inl h
        · rcases List.mem_cons.mp ht2 with h2 | h2
          · subst h2; exact absurd hn hb
          · exact .inr ⟨t2, h2, hn⟩

theorem initLoop_find (probe : MCPConfig → Except PyExc (List MCPTool))
    (nm : String) :
    ∀ (configs : List MCPConfig) (st : MCPState),
    (((initLoop probe st configs).toolMap.find?
        (fun p => p.1 == nm)).isSome = true) ↔
    ((st.toolMap.find? (fun p => p.1 == nm)).isSome = true ∨
      ∃ c ∈ configs, ∃ ts, probe c = .ok ts ∧ ∃ t ∈ ts, t.name = nm) := by
  intro configs
  induction configs with
  | nil => simp [initLoop]
  | cons c cs ih =>
    intro st
    rw [initLoop, ih]
    cases hp : probe c with
    | error e =>
      simp only [initStep, initStepBody, hp]
      constructor
      · rintro (h | ⟨c2, hc2, hrest⟩)
        · exact .inl h
        · exact .inr ⟨c2, List.mem_cons_of_mem _ hc2, hrest⟩
      · rintro (h | ⟨c2, hc2, ts, hts, h⟩)
        · exact .inl h
        · rcases List.mem_cons.mp hc2 with h2 | h2
          · subst h2; rw [hp] at hts; exact absurd hts (by simp)
          · exact .inr ⟨c2, h2, ts, hts, h⟩
    | ok ts =>
      simp only [initStep, initStepBody, hp, registerAll_find]
      constructor
      · rintro ((h | h) | h)
        · exact .inl h
        · exact .inr ⟨c, List.mem_cons_self _ _, ts, hp, h⟩
        · rcases h with ⟨c2, hc2, ts2, hts2, h2⟩
          exact .inr ⟨c2, List.mem_cons_of_mem _ hc2, ts2, hts2, h2⟩
      · rintro (h | ⟨c2, hc2, ts2, hts2, h2⟩)
        · exact .inl (.inl h)
        · rcases List.mem_cons.mp hc2 with h3 | h3
          · subst h3
            rw [hp] at hts2
            obtain rfl : ts = ts2 := by
              exact (Except.ok.injEq _ _).mp hts2
            exact .inl (.inr h2)
          · exact .inr ⟨c2, h3, ts2, hts2, h2⟩

theorem initLoop_append (probe : MCPConfig → Except PyExc (List MCPTool)) :
    ∀ (l1 l2 : List MCPConfig) (st : MCPState),
    initLoop probe st (l1 ++ l2) = initLoop probe (initLoop probe st l1) l2 := by
  intro l1
  induction l1 with
  | nil => intro l2 st; rfl
  | cons c cs ih => intro l2 st; rw [List.cons_append, initLoop, initLoop, ih]

/-- C8: `MultiMCP.initialize` builds the catalog from exactly the servers
whose probe (spawn, handshake, tool listing) succeeds: a failing server is
skipped without affecting the resulting state at all — removing it from
the configuration list gives the identical result — and a name is in the
tool map exactly when some succeeding server listed a tool with that
name.  The loop body catches every per-server exception, so the operation
itself returns for every probe outcome. -/
theorem c8_failing_server_skipped
    (probe : MCPConfig → Except PyExc (List MCPTool)) :
    (∀ pre post c e, probe c = .error e →
      initServers probe (pre ++ c :: post) = initServers probe (pre ++ post)) ∧
    (∀ configs nm,
      (((initServers probe configs).toolMap.find?
          (fun p => p.1 == nm)).isSome = true) ↔
      ∃ c ∈ configs, ∃ ts, probe c = .ok ts ∧ ∃ t ∈ ts, t.name = nm) := by
  constructor
  · intro pre post c e hp
    unfold initServers
    rw [initLoop_append, initLoop_append, initLoop]
    simp [initStep, initStepBody, hp]
  · intro configs nm
    unfold initServers
    rw [initLoop_find]
    simp [List.find?]

/-- Closed instance of `c8_failing_server_skipped`: with one healthy
server and one whose spawn fails, the catalog is identical to the one
built from the healthy server alone. -/
theorem c8_failing_server_skipped_witness :
    initServers
      (fun cfg => if cfg.id = "bad" then .error ⟨"OSError", "spawn failed"⟩
        else .ok [⟨"t1", ⟨["x"], []⟩⟩])
      [⟨"good", "server1.py"⟩, ⟨"bad", "server2.py"⟩] =
    initServers
      (fun cfg => if cfg.id = "bad" then .error ⟨"OSError", "spawn failed"⟩
        else .ok [⟨"t1", ⟨["x"], []⟩⟩])
      [⟨"good", "server1.py"⟩] := by
  have h := (c8_failing_server_skipped
    (fun cfg => if cfg.id = "bad" then .error ⟨"OSError", "spawn failed"⟩
      else .ok [⟨"t1", ⟨["x"], []⟩⟩])).1
    [⟨"good", "server1.py"⟩] [] ⟨"bad", "server2.py"⟩
    ⟨"OSError", "spawn failed"⟩ rfl
  exact h

/-- C9 counterexample: the program `final_answer(1); final_answer(2)`
reports `"1"`, not `"2"` — `final_answer` is
`lambda x: safe_globals.setdefault("result_holder", x)`, so the second
call does not update the slot, contradicting the claim that a later call
with a different value updates it and that the most recently recorded
value is honored. -/
theorem c9_later_call_does_not_update_counterexample :
    (runUserCode
      (.ok [PyStmt.sexpr (.ecall (.ename "final_answer") [.eint 1] []),
            PyStmt.sexpr (.ecall (.ename "final_answer") [.eint 2] [])])
      egEnv).1 = okEnvelope "1" egEnv.startTimestamp egEnv.elapsedStr ∧
    okEnvelope "1" egEnv.startTimestamp egEnv.elapsedStr ≠
      okEnvelope "2" egEnv.startTimestamp egEnv.elapsedStr := by
  exact ⟨rfl, by decide⟩

/-- C9 (amended): `final_answer(v)` records `v` into the side slot only
when the slot is still empty (`dict.setdefault` semantics): the first
recorded value persists, and a later call — with the same or a different
value — leaves the slot unchanged and returns the first value; the first
recorded value is the one honored when the unit returns no value. -/
theorem c9_first_final_answer_wins (tools : List String) (o : ToolOracle)
    (fuel : Nat) (a : PyExpr) (st st1 : RunState) (v : PyVal)
    (h : evalArgs tools o fuel [a] st = .ok ([v], st1)) :
    (st1.slot = none →
      evalE tools o (fuel + 1) (.ecall (.ename "final_answer") [a] []) st =
        .ok (v, { st1 with slot := some v })) ∧
    (∀ w, st1.slot = some w →
      evalE tools o (fuel + 1) (.ecall (.ename "final_answer") [a] []) st =
        .ok (w, st1)) := by
  constructor
  · intro hs
    simp only [evalE, h, hs]
    rfl
  · intro w hs
    simp only [evalE, h, hs]
    rfl

/-- Closed instance of `c9_first_final_answer_wins`: with the slot already
holding `9`, `final_answer(3)` leaves it at `9` and returns `9`. -/
theorem c9_first_final_answer_wins_witness :
    evalE [] (fun _ _ => .error ⟨"RuntimeError", "no tools"⟩) 6
      (.ecall (.ename "final_answer") [.eint 3] [])
      ⟨[], some (.vint 9), []⟩ = .ok (.vint 9, ⟨[], some (.vint 9), []⟩) := by
  have h := (c9_first_final_answer_wins []
    (fun _ _ => .error ⟨"RuntimeError", "no tools"⟩) 5 (.eint 3)
    ⟨[], some (.vint 9), []⟩ ⟨[], some (.vint 9), []⟩ (.vint 3) rfl).2
    (.vint 9) rfl
  exact h

theorem callsNameArgs_append (nm : String) (l1 l2 : List PyExpr) :
    callsNameArgs nm (l1 ++ l2) =
      (callsNameArgs nm l1 || callsNameArgs nm l2) := by
  induction l1 with
  | nil => simp [callsNameArgs]
  | cons e es ih => simp [callsNameArgs, ih, Bool.or_assoc]

mutual

theorem callsName_stripKwE (nm : String) :
    ∀ e, callsNameE nm (stripKwE e) = callsNameE nm e
  | .ename i => rfl
  | .eint n => rfl
  | .ebool b => rfl
  | .estr s => rfl
  | .enone => rfl
  | .eadd l r => by
    simp only [stripKwE, callsNameE, callsName_stripKwE nm l,
      callsName_stripKwE nm r]
  | .ecall f args kws => by
    have hhead : (match stripKwE f with
        | PyExpr.ename i => i == nm
        | _ => false) =
        (match f with
        | PyExpr.ename i => i == nm
        | _ => false) := by
      cases f <;> rfl
    have hf := callsName_stripKwE nm f
    have ha := callsName_stripKwArgs nm args
    have hk := callsName_stripKwVals nm kws
    simp only [stripKwE, callsNameE, callsNameArgs_append, ha, hk, hf, hhead,
      callsNameKw, Bool.or_false, Bool.or_assoc]
  | .eawait e => by
    simp only [stripKwE, callsNameE, callsName_stripKwE nm e]

theorem callsName_stripKwArgs (nm : String) :
    ∀ l, callsNameArgs nm (stripKwArgs l) = callsNameArgs nm l
  | [] => rfl
  | e :: es => by
    simp only [stripKwArgs, callsNameArgs, callsName_stripKwE nm e,
      callsName_stripKwArgs nm es]

theorem callsName_stripKwVals (nm : String) :
    ∀ l, callsNameArgs nm (stripKwVals l) = callsNameKw nm l
  | [] => rfl
  | (k, e) :: es => by
    simp only [stripKwVals, callsNameArgs, callsNameKw,
      callsName_stripKwE nm e, callsName_stripKwVals nm es]

end

mutual

theorem callsName_stripKwS (nm : String) :
    ∀ s, callsNameS nm (stripKwS s) = callsNameS nm s
  | .sassign ts v => by
    simp only [stripKwS, callsNameS, callsName_stripKwE nm v]
  | .sreturn none => rfl
  | .sreturn (some v) => by
    simp only [stripKwS, callsNameS, callsName_stripKwE nm v]
  | .sexpr e => by
    simp only [stripKwS, callsNameS, callsName_stripKwE nm e]
  | .sif c b o => by
    simp only [stripKwS, callsNameS, callsName_stripKwE nm c,
      callsName_stripKwBody nm b, callsName_stripKwBody nm o]
  | .swhile c b => by
    simp only [stripKwS, callsNameS, callsName_stripKwE nm c,
      callsName_stripKwBody nm b]

theorem callsName_stripKwBody (nm : String) :
    ∀ l, callsNameBody nm (stripKwBody l) = callsNameBody nm l
  | [] => rfl
  | s :: rest => by
    simp only [stripKwBody, callsNameBody, callsName_stripKwS nm s,
      callsName_stripKwBody nm rest]

end

mutual

theorem callsName_awaitTfE (nm : String) (tools : List String) :
    ∀ e, callsNameE nm (awaitTfE tools e) = callsNameE nm e
  | .ename i => rfl
  | .eint n => rfl
  | .ebool b => rfl
  | .estr s => rfl
  | .enone => rfl
  | .eadd l r => by
    simp only [awaitTfE, callsNameE, callsName_awaitTfE nm tools l,
      callsName_awaitTfE nm tools r]
  | .ecall f args kws => by
    have hhead : (match awaitTfE tools f with
        | PyExpr.ename i => i == nm
        | _ => false) =
        (match f with
        | PyExpr.ename i => i == nm
        | _ => false) := by
      cases f with
      | ecall g ga gk =>
        simp only [awaitTfE]
        cases g with
        | ename j => by_cases hcj : j ∈ tools <;> simp [hcj]
        | eint n => rfl
        | ebool b => rfl
        | estr s => rfl
        | enone => rfl
        | eadd l r => rfl
        | ecall h ha hk => rfl
        | eawait e => rfl
      | ename i => rfl
      | eint n => rfl
      | ebool b => rfl
      | estr s => rfl
      | enone => rfl
      | eadd l r => rfl
      | eawait e => rfl
    have hcc : callsNameE nm (awaitTfE tools (.ecall f args kws)) =
        callsNameE nm (PyExpr.ecall (awaitTfE tools f)
          (awaitTfArgs tools args) (awaitTfKw tools kws)) := by
      simp only [awaitTfE]
      cases f with
      | ename i =>
        by_cases hci : i ∈ tools <;> simp [hci, callsNameE]
      | eint n => rfl
      | ebool b => rfl
      | estr s => rfl
      | enone => rfl
      | eadd l r => rfl
      | ecall g ga gk => rfl
      | eawait e => rfl
    have hf := callsName_awaitTfE nm tools f
    have ha := callsName_awaitTfArgs nm tools args
    have hk := callsName_awaitTfKw nm tools kws
    rw [hcc]
    simp only [callsNameE, hf, ha, hk, hhead]
  | .eawait e => by
    simp only [awaitTfE, callsNameE, callsName_awaitTfE nm tools e]

theorem callsName_awaitTfArgs (nm : String) (tools : List String) :
    ∀ l, callsNameArgs nm (awaitTfArgs tools l) = callsNameArgs nm l
  | [] => rfl
  | e :: es => by
    simp only [awaitTfArgs, callsNameArgs, callsName_awaitTfE nm tools e,
      callsName_awaitTfArgs nm tools es]

theorem callsName_awaitTfKw (nm : String) (tools : List String) :
    ∀ l, callsNameKw nm (awaitTfKw tools l) = callsNameKw nm l
  | [] => rfl
  | (k, e) :: es => by
    simp only [awaitTfKw, callsNameKw, callsName_awaitTfE nm tools e,
      callsName_awaitTfKw nm tools es]

end

mutual

theorem callsName_awaitTfS (nm : String) (tools : List String) :
    ∀ s, callsNameS nm (awaitTfS tools s) = callsNameS nm s
  | .sassign ts v => by
    simp only [awaitTfS, callsNameS, callsName_awaitTfE nm tools v]
  | .sreturn none => rfl
  | .sreturn (some v) => by
    simp only [awaitTfS, callsNameS, callsName_awaitTfE nm tools v]
  | .sexpr e => by
    simp only [awaitTfS, callsNameS, callsName_awaitTfE nm tools e]
  | .sif c b o => by
    simp only [awaitTfS, callsNameS, callsName_awaitTfE nm tools c,
      callsName_awaitTfBody nm tools b, callsName_awaitTfBody nm tools o]
  | .swhile c b => by
    simp only [awaitTfS, callsNameS, callsName_awaitTfE nm tools c,
      callsName_awaitTfBody nm tools b]

theorem callsName_awaitTfBody (nm : String) (tools : List String) :
    ∀ l, callsNameBody nm (awaitTfBody tools l) = callsNameBody nm l
  | [] => rfl
  | s :: rest => by
    simp only [awaitTfBody, callsNameBody, callsName_awaitTfS nm tools s,
      callsName_awaitTfBody nm tools rest]

end

mutual

theorem hasReturnDeep_stripKwS :
    ∀ s, hasReturnDeepS (stripKwS s) = hasReturnDeepS s
  | .sassign ts v => rfl
  | .sreturn none => rfl
  | .sreturn (some v) => rfl
  | .sexpr e => rfl
  | .sif c b o => by
    simp only [stripKwS, hasReturnDeepS, hasReturnDeep_stripKwBody b,
      hasReturnDeep_stripKwBody o]
  | .swhile c b => by
    simp only [stripKwS, hasReturnDeepS, hasReturnDeep_stripKwBody b]

theorem hasReturnDeep_stripKwBody :
    ∀ l, hasReturnDeepBody (stripKwBody l) = hasReturnDeepBody l
  | [] => rfl
  | s :: rest => by
    simp only [stripKwBody, hasReturnDeepBody, hasReturnDeep_stripKwS s,
      hasReturnDeep_stripKwBody rest]

end

mutual

theorem hasReturnDeep_awaitTfS (tools : List String) :
    ∀ s, hasReturnDeepS (awaitTfS tools s) = hasReturnDeepS s
  | .sassign ts v => rfl
  | .sreturn none => rfl
  | .sreturn (some v) => rfl
  | .sexpr e => rfl
  | .sif c b o => by
    simp only [awaitTfS, hasReturnDeepS, hasReturnDeep_awaitTfBody tools b,
      hasReturnDeep_awaitTfBody tools o]
  | .swhile c b => by
    simp only [awaitTfS, hasReturnDeepS, hasReturnDeep_awaitTfBody tools b]

theorem hasReturnDeep_awaitTfBody (tools : List String) :
    ∀ l, hasReturnDeepBody (awaitTfBody tools l) = hasReturnDeepBody l
  | [] => rfl
  | s :: rest => by
    simp only [awaitTfBody, hasReturnDeepBody, hasReturnDeep_awaitTfS tools s,
      hasReturnDeep_awaitTfBody tools rest]

end

theorem evalE_slot_inv (tools : List String) (o : ToolOracle) :
    ∀ fuel : Nat,
      (∀ e st v st1, callsNameE "final_answer" e = false →
        evalE tools o fuel e st = .ok (v, st1) → st1.slot = st.slot) ∧
      (∀ es st vs st1, callsNameArgs "final_answer" es = false →
        evalArgs tools o fuel es st = .ok (vs, st1) → st1.slot = st.slot) := by
  intro fuel
  induction fuel with
  | zero =>
    constructor
    · intro e st v st1 _ h
      simp [evalE] at h
    · intro es st vs st1 _ h
      cases es with
      | nil =>
        simp only [evalArgs, Except.ok.injEq, Prod.mk.injEq] at h
        rw [← h.2]
      | cons e es => simp [evalArgs] at h
  | succ fuel ih =>
    obtain ⟨ihE, ihA⟩ := ih
    constructor
    · intro e st v st1 hfa h
      cases e with
      | ename i =>
        simp only [evalE] at h
        split at h
        · injection h with h2
          injection h2 with hv hst
          rw [← hst]
        · exact Except.noConfusion h
      | eint n =>
        simp only [evalE, Except.ok.injEq, Prod.mk.injEq] at h
        rw [← h.2]
      | ebool b =>
        simp only [evalE, Except.ok.injEq, Prod.mk.injEq] at h
        rw [← h.2]
      | estr s =>
        simp only [evalE, Except.ok.injEq, Prod.mk.injEq] at h
        rw [← h.2]
      | enone =>
        simp only [evalE, Except.ok.injEq, Prod.mk.injEq] at h
        rw [← h.2]
      | eadd l r =>
        simp only [callsNameE, Bool.or_eq_false_iff] at hfa
        simp only [evalE] at h
        split at h
        · exact Except.noConfusion h
        · rename_i vl stl h1
          split at h
          · exact Except.noConfusion h
          · rename_i vr str2 h2
            split at h
            · injection h with h3
              injection h3 with hv hst
              rw [← hst]
              exact (ihE r stl _ str2 hfa.2 h2).trans
                (ihE l st _ stl hfa.1 h1)
            · exact Except.noConfusion h
      | eawait inner =>
        simp only [callsNameE] at hfa
        simp only [evalE] at h
        exact ihE inner st v st1 hfa h
      | ecall f args kws =>
        simp only [evalE] at h
        split at h
        · rename_i i
          simp only [callsNameE, Bool.or_eq_false_iff, Bool.false_or,
            Bool.or_false] at hfa
          obtain ⟨⟨hhead, hargs⟩, hkw⟩ := hfa
          split at h
          · exact Except.noConfusion h
          · rename_i vs st2 hA
            have eA := ihA args st vs st2 hargs hA
            split at h
            · rename_i hcond
              rw [hhead] at hcond
              exact Bool.noConfusion hcond
            · split at h
              · split at h
                · exact Except.noConfusion h
                · injection h with h2
                  injection h2 with hv hst
                  rw [← hst]
                  exact eA
              · exact Except.noConfusion h
        · exact Except.noConfusion h
    · intro es st vs st1 hfa h
      cases es with
      | nil =>
        simp only [evalArgs, Except.ok.injEq, Prod.mk.injEq] at h
        rw [← h.2]
      | cons e es =>
        simp only [callsNameArgs, Bool.or_eq_false_iff] at hfa
        simp only [evalArgs] at h
        split at h
        · exact Except.noConfusion h
        · rename_i w st2 h1
          split at h
          · exact Except.noConfusion h
          · rename_i ws st3 h2
            injection h with h3
            injection h3 with hv hst
            rw [← hst]
            exact (ihA es st2 ws st3 hfa.2 h2).trans
              (ihE e st w st2 hfa.1 h1)

theorem evalS_noret_inv (tools : List String) (o : ToolOracle) :
    ∀ fuel : Nat,
      (∀ s st out, callsNameS "final_answer" s = false →
        hasReturnDeepS s = false →
        evalS tools o fuel s st = .ok out →
        out.1 = PyFlow.normal ∧ out.2.slot = st.slot) ∧
      (∀ l st out, callsNameBody "final_answer" l = false →
        hasReturnDeepBody l = false →
        evalBody tools o fuel l st = .ok out →
        out.1 = PyFlow.normal ∧ out.2.slot = st.slot) := by
  intro fuel
  induction fuel with
  | zero =>
    constructor
    · intro s st out _ _ h
      simp [evalS] at h
    · intro l st out _ _ h
      cases l with
      | nil =>
        simp only [evalBody, Except.ok.injEq] at h
        rw [← h]
        exact ⟨rfl, rfl⟩
      | cons s rest => simp [evalBody] at h
  | succ fuel ih =>
    obtain ⟨ihS, ihB⟩ := ih
    have E := (evalE_slot_inv tools o fuel).1
    constructor
    · intro s st out hfa hret h
      cases s with
      | sassign ts v =>
        simp only [callsNameS] at hfa
        simp only [evalS] at h
        split at h
        · exact Except.noConfusion h
        · rename_i w st1 h1
          injection h with h2
          rw [← h2]
          exact ⟨rfl, E v st w st1 hfa h1⟩
      | sreturn v =>
        simp only [hasReturnDeepS] at hret
        exact Bool.noConfusion hret
      | sexpr e =>
        simp only [callsNameS] at hfa
        simp only [evalS] at h
        split at h
        · exact Except.noConfusion h
        · rename_i w st1 h1
          injection h with h2
          rw [← h2]
          exact ⟨rfl, E e st w st1 hfa h1⟩
      | sif c b orelse =>
        simp only [callsNameS, Bool.or_eq_false_iff] at hfa
        obtain ⟨⟨hc, hb⟩, ho⟩ := hfa
        simp only [hasReturnDeepS, Bool.or_eq_false_iff] at hret
        obtain ⟨hrb, hro⟩ := hret
        simp only [evalS] at h
        split at h
        · exact Except.noConfusion h
        · rename_i w st1 h1
          have e1 := E c st w st1 hc h1
          split at h
          · have e2 := ihB b st1 out hb hrb h
            exact ⟨e2.1, e2.2.trans e1⟩
          · have e2 := ihB orelse st1 out ho hro h
            exact ⟨e2.1, e2.2.trans e1⟩
      | swhile c b =>
        simp only [callsNameS, Bool.or_eq_false_iff] at hfa
        obtain ⟨hc, hb⟩ := hfa
        simp only [hasReturnDeepS] at hret
        simp only [evalS] at h
        split at h
        · exact Except.noConfusion h
        · rename_i w st1 h1
          have e1 := E c st w st1 hc h1
          split at h
          · split at h
            · exact Except.noConfusion h
            · rename_i v2 st2 hB
              have hcontra := (ihB b st1 (PyFlow.returned v2, st2) hb hret hB).1
              exact PyFlow.noConfusion hcontra
            · rename_i st2 hB
              have e2 := (ihB b st1 (PyFlow.normal, st2) hb hret hB).2
              have hfa2 : callsNameS "final_answer" (PyStmt.swhile c b) = false := by
                simp only [callsNameS, Bool.or_eq_false_iff]
                exact ⟨hc, hb⟩
              have hret2 : hasReturnDeepS (PyStmt.swhile c b) = false := by
                simp only [hasReturnDeepS]
                exact hret
              have e3 := ihS (PyStmt.swhile c b) st2 out hfa2 hret2 h
              exact ⟨e3.1, e3.2.trans (e2.trans e1)⟩
          · injection h with h2
            rw [← h2]
            exact ⟨rfl, e1⟩
    · intro l st out hfa hret h
      cases l with
      | nil =>
        simp only [evalBody, Except.ok.injEq] at h
        rw [← h]
        exact ⟨rfl, rfl⟩
      | cons s rest =>
        simp only [callsNameBody, Bool.or_eq_false_iff] at hfa
        obtain ⟨hs, hrest⟩ := hfa
        simp only [hasReturnDeepBody, Bool.or_eq_false_iff] at hret
        obtain ⟨hrs, hrrest⟩ := hret
        simp only [evalBody] at h
        split at h
        · exact Except.noConfusion h
        · rename_i v st1 hS
          have hcontra := (ihS s st (PyFlow.returned v, st1) hs hrs hS).1
          exact PyFlow.noConfusion hcontra
        · rename_i st1 hS
          have e1 := (ihS s st (PyFlow.normal, st1) hs hrs hS).2
          have e2 := ihB rest st1 out hrest hrrest h
          exact ⟨e2.1, e2.2.trans e1⟩

/-- C10: the implicit result capture inspects only top-level statements —
for a program with no top-level assignment to `result` (even if nested
assignments to `result` exist inside `if`/`while` bodies), no implicit
`return` is appended; if the program also never calls `final_answer` and
contains no `return` at all, a terminating run reports success with the
literal `"None"` rather than any assigned value. -/
theorem c10_implicit_capture_is_top_level_only (env : ExecEnv)
    (tree : List PyStmt) (out : PyFlow × RunState)
    (hcnt : ¬ MAX_FUNCTIONS < countFunctionCalls tree)
    (hres : hasResultTop tree = false)
    (hfa : callsNameBody "final_answer" tree = false)
    (hret : hasReturnDeepBody tree = false)
    (hrun : runBody env tree = .ok out) :
    appendImplicitReturn tree = tree ∧
    runUserCode (.ok tree) env =
      (okEnvelope "None" env.startTimestamp env.elapsedStr,
       [ExecEvent.builtProxies, ExecEvent.compiled,
        ExecEvent.ran (max 3 (countFunctionCalls tree * TIMEOUT_PER_FUNCTION))]) := by
  obtain ⟨flow, st⟩ := out
  have happ : appendImplicitReturn tree = tree := by
    simp [appendImplicitReturn, hres]
  refine ⟨happ, ?_⟩
  have hrun2 := hrun
  unfold runBody at hrun2
  split at hrun2
  · exact Except.noConfusion hrun2
  · rw [rewriteTree, happ] at hrun2
    have hfa2 : callsNameBody "final_answer"
        (awaitTfBody env.tools (stripKwBody tree)) = false := by
      rw [callsName_awaitTfBody, callsName_stripKwBody]
      exact hfa
    have hret2 : hasReturnDeepBody
        (awaitTfBody env.tools (stripKwBody tree)) = false := by
      rw [hasReturnDeep_awaitTfBody, hasReturnDeep_stripKwBody]
      exact hret
    have hinv := (evalS_noret_inv env.tools env.oracle env.fuel).2
      (awaitTfBody env.tools (stripKwBody tree)) ⟨[], none, []⟩ (flow, st)
      hfa2 hret2 hrun2
    obtain ⟨hfl, hsl⟩ := hinv
    dsimp only at hfl hsl
    subst hfl
    unfold runUserCode
    dsimp only
    rw [if_neg hcnt, hrun]
    dsimp only
    rw [if_pos rfl, hsl]
    rfl

/-- Closed instance of `c10_implicit_capture_is_top_level_only`: the
program `if True: result = 2 + 2` reports success `"None"`, not `"4"`. -/
theorem c10_implicit_capture_is_top_level_only_witness :
    runUserCode
      (.ok [PyStmt.sif (.ebool true)
        [PyStmt.sassign ["result"] (.eadd (.eint 2) (.eint 2))] []]) egEnv =
      (okEnvelope "None" egEnv.startTimestamp egEnv.elapsedStr,
       [ExecEvent.builtProxies, ExecEvent.compiled, ExecEvent.ran 3]) := by
  have h := c10_implicit_capture_is_top_level_only egEnv
    [PyStmt.sif (.ebool true)
      [PyStmt.sassign ["result"] (.eadd (.eint 2) (.eint 2))] []]
    (PyFlow.normal, ⟨[("result", .vint 4)], none, []⟩)
    (by decide) (by decide) (by decide) (by decide) rfl
  exact h.2
